import Mathlib

/-!
Verification of the request-pipeline components of the content-hub API:
the logger middleware's body sanitizer, the tenant-context middleware,
the JWT auth guard, the feature-flag guard, and the roles guard.
Each definition below is a shallow embedding of the corresponding
TypeScript source (file and method named in its doc comment).
-/

namespace ContentHub

/-! ## JavaScript value model (tree-shaped)

A JSON-like value as manipulated by LoggerMiddleware.sanitizeBody.
Mappings are association lists in insertion order (matching JS object key
order).  This tree model covers every acyclic body; self-referential
bodies are handled separately by the step-indexed heap model below. -/

inductive JsVal where
  | str (s : String)
  | num (n : Int)
  | orbool (b : Bool)
  | null
  | undefined
  | arr (elems : List JsVal)
  | obj (fields : List (String × JsVal))
deriving Repr

/-- The sensitive field names from LoggerMiddleware.sanitizeBody
(logger.middleware.ts): const sensitiveFields = [...]. -/
def sensitiveFields : List String :=
  [("password"), ("token"), ("secret"), ("authorization"), ("creditCard"), ("cvv")]

/-- JavaScript truthiness of a value: empty string, zero, false, null and
undefined are falsy; arrays and objects are always truthy. -/
def truthy : JsVal → Bool
  | JsVal.str s => s != ""
  | JsVal.num n => n != 0
  | JsVal.orbool b => b
  | JsVal.null => false
  | JsVal.undefined => false
  | JsVal.arr _ => true
  | JsVal.obj _ => true

/-- JS property read m[k]: the first binding of k, or undefined when absent. -/
def getField (m : List (String × JsVal)) (k : String) : JsVal :=
  match m.find? (fun kv => kv.1 == k) with
  | some kv => kv.2
  | none => JsVal.undefined

/-- JS property write m[k] = v: overwrite the first binding of k in place,
or append when the key is absent (the append case never fires under the
truthiness guard of the redaction loop, since an absent key reads as
undefined, which is falsy). -/
def setField : List (String × JsVal) → String → JsVal → List (String × JsVal)
  | [], k, v => [(k, v)]
  | (k0, v0) :: rest, k, v =>
    if k0 == k then (k, v) :: rest else (k0, v0) :: setField rest k v

/-- One iteration of the first loop of sanitizeBody:
if (sanitized[field]) sanitized[field] = REDACTED. -/
def redactStep (m : List (String × JsVal)) (f : String) : List (String × JsVal) :=
  if truthy (getField m f) then setField m f (JsVal.str ("[REDACTED]")) else m

/-- The first loop of sanitizeBody: for (const field of sensitiveFields)
if (sanitized[field]) sanitized[field] = REDACTED.  The spread copy
{...body} is implicit: the association list is rebuilt functionally. -/
def redactFields (m : List (String × JsVal)) : List (String × JsVal) :=
  sensitiveFields.foldl redactStep m

/-! Depth measure used only for the termination of the sanitizer:
the nesting depth of mappings (arrays are not recursed into, so they
contribute nothing). -/

mutual

def vdepth : JsVal → Nat
  | JsVal.obj fields => 1 + fdepth fields
  | _ => 0

def fdepth : List (String × JsVal) → Nat
  | [] => 0
  | (_, v) :: rest => Nat.max (vdepth v) (fdepth rest)

end

theorem mem_setField {m : List (String × JsVal)} {k : String} {w : JsVal}
    {kv : String × JsVal} (h : kv ∈ setField m k w) : kv ∈ m ∨ kv = (k, w) := by
  induction m with
  | nil =>
    simp [setField] at h
    exact Or.inr h
  | cons hd tl ih =>
    rcases hd with ⟨k0, v0⟩
    by_cases hk : (k0 == k) = true
    · simp [setField, hk] at h
      rcases h with h | h
      · exact Or.inr (by simp [h])
      · exact Or.inl (List.mem_cons_of_mem _ h)
    · simp [setField, hk] at h
      rcases h with h | h
      · exact Or.inl (by simp [h])
      · rcases ih h with h' | h'
        · exact Or.inl (List.mem_cons_of_mem _ h')
        · exact Or.inr h'

theorem mem_redactStep {m : List (String × JsVal)} {f : String}
    {kv : String × JsVal} (h : kv ∈ redactStep m f) :
    kv ∈ m ∨ kv.2 = JsVal.str ("[REDACTED]") := by
  unfold redactStep at h
  by_cases ht : truthy (getField m f) = true
  · rw [if_pos ht] at h
    rcases mem_setField h with h' | h'
    · exact Or.inl h'
    · exact Or.inr (by rw [h'])
  · rw [if_neg ht] at h
    exact Or.inl h

theorem mem_foldl_redactStep {fs : List String} {m : List (String × JsVal)}
    {kv : String × JsVal} (h : kv ∈ fs.foldl redactStep m) :
    kv ∈ m ∨ kv.2 = JsVal.str ("[REDACTED]") := by
  induction fs generalizing m with
  | nil => exact Or.inl h
  | cons f fs ih =>
    rcases ih (m := redactStep m f) h with h' | h'
    · exact mem_redactStep h'
    · exact Or.inr h'

theorem mem_redactFields {m : List (String × JsVal)} {kv : String × JsVal}
    (h : kv ∈ redactFields m) : kv ∈ m ∨ kv.2 = JsVal.str ("[REDACTED]") :=
  mem_foldl_redactStep h

theorem vdepth_le_fdepth {m : List (String × JsVal)} {kv : String × JsVal}
    (h : kv ∈ m) : vdepth kv.2 ≤ fdepth m := by
  induction m with
  | nil => cases h
  | cons hd tl ih =>
    rcases List.mem_cons.mp h with h' | h'
    · subst h'
      rcases kv with ⟨k, v⟩
      simp [fdepth]
    · calc vdepth kv.2 ≤ fdepth tl := ih h'
        _ ≤ fdepth (hd :: tl) := by rcases hd with ⟨k, v⟩; simp [fdepth]

theorem mem_redactFields_obj {m fields : List (String × JsVal)} {k : String}
    (h : (k, JsVal.obj fields) ∈ redactFields m) : fdepth fields < fdepth m := by
  rcases mem_redactFields h with h' | h'
  · have := vdepth_le_fdepth h'
    simp [vdepth] at this
    omega
  · simp at h'

theorem fdepth_le {l : List (String × JsVal)} {B : Nat}
    (hb : ∀ kv ∈ l, vdepth kv.2 ≤ B) : fdepth l ≤ B := by
  induction l with
  | nil => simp [fdepth]
  | cons hd tl ih =>
    rcases hd with ⟨k, v⟩
    simp only [fdepth]
    refine Nat.max_le.mpr ⟨hb (k, v) (List.mem_cons_self _ _), ?_⟩
    exact ih (fun kv h' => hb kv (List.mem_cons_of_mem _ h'))

theorem fdepth_redactFields_le (m : List (String × JsVal)) :
    fdepth (redactFields m) ≤ fdepth m := by
  refine fdepth_le (fun kv hkv => ?_)
  rcases mem_redactFields hkv with h' | h'
  · exact vdepth_le_fdepth h'
  · simp [h', vdepth]

theorem fdepth_cons_obj (k : String) (fields rest : List (String × JsVal)) :
    fdepth fields < fdepth ((k, JsVal.obj fields) :: rest) := by
  simp only [fdepth, vdepth]
  calc fdepth fields < 1 + fdepth fields := by omega
    _ ≤ Nat.max (1 + fdepth fields) (fdepth rest) := Nat.le_max_left _ _

theorem fdepth_rest_le (kv : String × JsVal) (rest : List (String × JsVal)) :
    fdepth rest ≤ fdepth (kv :: rest) := by
  rcases kv with ⟨k, v⟩
  simp [fdepth]

theorem lex_of_le_of_lt {a1 a2 b1 b2 : Nat} (ha : a1 ≤ a2) (hb : b1 < b2) :
    Prod.Lex (· < ·) (· < ·) (a1, b1) (a2, b2) := by
  rcases Nat.lt_or_ge a1 a2 with h | h
  · exact Prod.Lex.left _ _ h
  · have heq : a1 = a2 := Nat.le_antisymm ha h
    subst heq
    exact Prod.Lex.right _ hb

theorem lex_of_lt {a1 a2 b1 b2 : Nat} (ha : a1 < a2) :
    Prod.Lex (· < ·) (· < ·) (a1, b1) (a2, b2) :=
  Prod.Lex.left _ _ ha

/-- The nested-object loop of sanitizeBody together with the recursive
call: for (const key of Object.keys(sanitized)) if the value is a
non-null, non-array object, replace it by this.sanitizeBody(value).
The recursive call of the source, sanitizeBody nested, unfolds to
sanitizeList (redactFields nested) here. -/
def sanitizeList : List (String × JsVal) → List (String × JsVal)
  | [] => []
  | (k, JsVal.obj fields) :: rest =>
    (k, JsVal.obj (sanitizeList (redactFields fields))) :: sanitizeList rest
  | kv :: rest => kv :: sanitizeList rest
termination_by l => (fdepth l, l.length)
decreasing_by
  · simp_wf
    exact lex_of_lt (Nat.lt_of_le_of_lt (fdepth_redactFields_le fields) (fdepth_cons_obj k fields rest))
  · simp_wf
    exact lex_of_le_of_lt (fdepth_rest_le (k, JsVal.obj fields) rest) (by omega)
  · simp_wf
    exact lex_of_le_of_lt (fdepth_rest_le kv rest) (by omega)

/-- LoggerMiddleware.sanitizeBody (logger.middleware.ts, lines 44-62 of
the middleware source): copy the mapping, redact truthy sensitive fields,
then recurse into non-null non-array object values. -/
def sanitizeBody (m : List (String × JsVal)) : List (String × JsVal) :=
  sanitizeList (redactFields m)

/-! ## Redaction property (claims C3 and C9) -/

theorem getField_cons (k : String) (v : JsVal) (rest : List (String × JsVal)) (f : String) :
    getField ((k, v) :: rest) f = if (k == f) = true then v else getField rest f := by
  by_cases h : (k == f) = true
  · simp [getField, List.find?, h]
  · simp only [Bool.not_eq_true] at h
    simp [getField, List.find?, h]

theorem getField_setField_self (m : List (String × JsVal)) (k : String) (w : JsVal) :
    getField (setField m k w) k = w := by
  induction m with
  | nil => simp [setField, getField, List.find?]
  | cons hd tl ih =>
    rcases hd with ⟨k0, v0⟩
    by_cases h : (k0 == k) = true
    · simp [setField, h, getField, List.find?]
    · simp only [Bool.not_eq_true] at h
      simp only [setField, h, Bool.false_eq_true, if_false]
      rw [getField_cons]
      simp [h, ih]

theorem getField_setField_other {f k : String} (m : List (String × JsVal)) (w : JsVal)
    (hne : (k == f) = false) : getField (setField m k w) f = getField m f := by
  induction m with
  | nil => simp [setField, getField, List.find?, hne]
  | cons hd tl ih =>
    rcases hd with ⟨k0, v0⟩
    by_cases h : (k0 == k) = true
    · have hk0 : k0 = k := by simpa using h
      subst hk0
      simp only [setField, beq_self_eq_true, if_true]
      rw [getField_cons, getField_cons]
      simp [hne]
    · simp only [Bool.not_eq_true] at h
      simp only [setField, h, Bool.false_eq_true, if_false]
      rw [getField_cons, getField_cons]
      by_cases h0 : (k0 == f) = true
      · simp [h0]
      · simp only [Bool.not_eq_true] at h0
        simp [h0, ih]

/-- The current value of field f after part of the redaction loop ran:
either still the original value, or the original was truthy and the field
now holds the marker. -/
def origRel (m0 m : List (String × JsVal)) (f : String) : Prop :=
  getField m f = getField m0 f ∨
    (truthy (getField m0 f) = true ∧ getField m f = JsVal.str ("[REDACTED]"))

/-- The input-output contract of the redaction loop at field f: a truthy
original value has become exactly the marker, a falsy original value is
still there unchanged. -/
def redactedRel (m0 m : List (String × JsVal)) (f : String) : Prop :=
  (truthy (getField m0 f) = true → getField m f = JsVal.str ("[REDACTED]")) ∧
  (truthy (getField m0 f) = false → getField m f = getField m0 f)

theorem getField_redactStep_ne {m : List (String × JsVal)} {f g : String}
    (hne : (g == f) = false) : getField (redactStep m g) f = getField m f := by
  unfold redactStep
  by_cases ht : truthy (getField m g) = true
  · rw [if_pos ht]
    exact getField_setField_other m _ hne
  · rw [if_neg ht]

theorem getField_foldl_ne (fs : List String) (m : List (String × JsVal)) (f : String)
    (hf : f ∉ fs) : getField (fs.foldl redactStep m) f = getField m f := by
  induction fs generalizing m with
  | nil => rfl
  | cons g gs ih =>
    have hne : g ≠ f := by
      intro hgf
      exact hf (List.mem_cons.mpr (Or.inl hgf.symm))
    have hg : (g == f) = false := by simpa using hne
    show getField (gs.foldl redactStep (redactStep m g)) f = getField m f
    rw [ih (redactStep m g) (fun hmem => hf (List.mem_cons_of_mem _ hmem))]
    exact getField_redactStep_ne hg

theorem origRel_redactStep {m0 m : List (String × JsVal)} {f : String} (g : String)
    (h : origRel m0 m f) : origRel m0 (redactStep m g) f := by
  by_cases hg : (g == f) = true
  · have hgf : g = f := by simpa using hg
    subst hgf
    unfold redactStep
    by_cases ht : truthy (getField m g) = true
    · rw [if_pos ht]
      rcases h with h | ⟨ht0, hred⟩
      · exact Or.inr ⟨by rw [← h]; exact ht, getField_setField_self m g _⟩
      · exact Or.inr ⟨ht0, getField_setField_self m g _⟩
    · rw [if_neg ht]
      exact h
  · simp only [Bool.not_eq_true] at hg
    unfold origRel at h ⊢
    rw [getField_redactStep_ne hg]
    exact h

theorem redactedRel_redactStep_self {m0 m : List (String × JsVal)} {f : String}
    (h : origRel m0 m f) : redactedRel m0 (redactStep m f) f := by
  unfold redactedRel redactStep
  rcases h with h | ⟨ht0, hred⟩
  · by_cases ht : truthy (getField m f) = true
    · rw [if_pos ht]
      constructor
      · intro _
        exact getField_setField_self m f _
      · intro h0
        rw [← h] at h0
        rw [h0] at ht
        cases ht
    · rw [if_neg ht]
      constructor
      · intro h0
        rw [← h] at h0
        exact absurd h0 ht
      · intro _
        exact h
  · have ht : truthy (getField m f) = true := by
      rw [hred]
      decide
    rw [if_pos ht]
    constructor
    · intro _
      exact getField_setField_self m f _
    · intro h0
      exact Bool.noConfusion (ht0.symm.trans h0)

theorem redactedRel_redactStep {m0 m : List (String × JsVal)} {f : String} (g : String)
    (h : redactedRel m0 m f) : redactedRel m0 (redactStep m g) f := by
  by_cases hg : (g == f) = true
  · have hgf : g = f := by simpa using hg
    subst hgf
    rcases h with ⟨h1, h2⟩
    by_cases ht0 : truthy (getField m0 g) = true
    · have hcur : getField m g = JsVal.str ("[REDACTED]") := h1 ht0
      have ht : truthy (getField m g) = true := by
        rw [hcur]
        decide
      unfold redactStep
      rw [if_pos ht]
      constructor
      · intro _
        exact getField_setField_self m g _
      · intro h0
        exact Bool.noConfusion (ht0.symm.trans h0).symm
    · simp only [Bool.not_eq_true] at ht0
      have hcur : getField m g = getField m0 g := h2 ht0
      have ht : truthy (getField m g) = false := by
        rw [hcur]
        exact ht0
      unfold redactStep
      rw [if_neg (by rw [ht]; exact Bool.false_ne_true)]
      exact ⟨h1, h2⟩
  · simp only [Bool.not_eq_true] at hg
    unfold redactedRel at h ⊢
    rw [getField_redactStep_ne hg]
    exact h

theorem redactedRel_foldl (fs : List String) (m0 m : List (String × JsVal)) (f : String)
    (h : redactedRel m0 m f) : redactedRel m0 (fs.foldl redactStep m) f := by
  induction fs generalizing m with
  | nil => exact h
  | cons g gs ih => exact ih (redactStep m g) (redactedRel_redactStep g h)

theorem redactedRel_foldl_mem (fs : List String) (m0 m : List (String × JsVal)) (f : String)
    (hf : f ∈ fs) (h : origRel m0 m f) : redactedRel m0 (fs.foldl redactStep m) f := by
  induction fs generalizing m with
  | nil => cases hf
  | cons g gs ih =>
    rcases List.mem_cons.mp hf with h' | h'
    · subst h'
      exact redactedRel_foldl gs m0 (redactStep m f) f (redactedRel_redactStep_self h)
    · exact ih (redactStep m g) h' (origRel_redactStep g h)

/-- After the full redaction loop, every sensitive field satisfies the
input-output contract: truthy values became exactly the marker, falsy
values are untouched. -/
theorem redactedRel_redactFields (m : List (String × JsVal)) (f : String)
    (hf : f ∈ sensitiveFields) : redactedRel m (redactFields m) f :=
  redactedRel_foldl_mem sensitiveFields m m f hf (Or.inl rfl)

theorem getField_sanitizeList (l : List (String × JsVal)) (f : String) :
    getField (sanitizeList l) f =
      match getField l f with
      | JsVal.obj fields => JsVal.obj (sanitizeList (redactFields fields))
      | v => v := by
  induction l with
  | nil => simp [sanitizeList, getField, List.find?]
  | cons hd tl ih =>
    rcases hd with ⟨k, v⟩
    cases v with
    | obj fields =>
      rw [show sanitizeList ((k, JsVal.obj fields) :: tl) =
          (k, JsVal.obj (sanitizeList (redactFields fields))) :: sanitizeList tl from by
        rw [sanitizeList]; all_goals simp]
      rw [getField_cons, getField_cons]
      by_cases h : (k == f) = true
      · simp [h]
      · simp only [Bool.not_eq_true] at h
        simp [h, ih]
    | str s =>
      rw [show sanitizeList ((k, JsVal.str s) :: tl) = (k, JsVal.str s) :: sanitizeList tl from by
        rw [sanitizeList]; all_goals simp]
      rw [getField_cons, getField_cons]
      by_cases h : (k == f) = true
      · simp [h]
      · simp only [Bool.not_eq_true] at h
        simp [h, ih]
    | num n =>
      rw [show sanitizeList ((k, JsVal.num n) :: tl) = (k, JsVal.num n) :: sanitizeList tl from by
        rw [sanitizeList]; all_goals simp]
      rw [getField_cons, getField_cons]
      by_cases h : (k == f) = true
      · simp [h]
      · simp only [Bool.not_eq_true] at h
        simp [h, ih]
    | orbool b =>
      rw [show sanitizeList ((k, JsVal.orbool b) :: tl) = (k, JsVal.orbool b) :: sanitizeList tl from by
        rw [sanitizeList]; all_goals simp]
      rw [getField_cons, getField_cons]
      by_cases h : (k == f) = true
      · simp [h]
      · simp only [Bool.not_eq_true] at h
        simp [h, ih]
    | null =>
      rw [show sanitizeList ((k, JsVal.null) :: tl) = (k, JsVal.null) :: sanitizeList tl from by
        rw [sanitizeList]; all_goals simp]
      rw [getField_cons, getField_cons]
      by_cases h : (k == f) = true
      · simp [h]
      · simp only [Bool.not_eq_true] at h
        simp [h, ih]
    | undefined =>
      rw [show sanitizeList ((k, JsVal.undefined) :: tl) = (k, JsVal.undefined) :: sanitizeList tl from by
        rw [sanitizeList]; all_goals simp]
      rw [getField_cons, getField_cons]
      by_cases h : (k == f) = true
      · simp [h]
      · simp only [Bool.not_eq_true] at h
        simp [h, ih]
    | arr xs =>
      rw [show sanitizeList ((k, JsVal.arr xs) :: tl) = (k, JsVal.arr xs) :: sanitizeList tl from by
        rw [sanitizeList]; all_goals simp]
      rw [getField_cons, getField_cons]
      by_cases h : (k == f) = true
      · simp [h]
      · simp only [Bool.not_eq_true] at h
        simp [h, ih]

theorem get?_setField_ne {m : List (String × JsVal)} {i : Nat} {k0 k : String}
    {v0 w : JsVal} (hi : m.get? i = some (k0, v0)) (hne : (k0 == k) = false) :
    (setField m k w).get? i = some (k0, v0) := by
  induction m generalizing i with
  | nil => simp at hi
  | cons hd tl ih =>
    rcases hd with ⟨k1, v1⟩
    by_cases h1 : (k1 == k) = true
    · simp only [setField, h1, if_true]
      cases i with
      | zero =>
        simp at hi
        rcases hi with ⟨hk, hv⟩
        subst hk
        rw [h1] at hne
        cases hne
      | succ i => simpa using (by simpa using hi)
    · simp only [Bool.not_eq_true] at h1
      simp only [setField, h1, Bool.false_eq_true, if_false]
      cases i with
      | zero => simpa using hi
      | succ i =>
        simp only [List.get?] at hi ⊢
        exact ih hi

theorem get?_redactStep_ne {m : List (String × JsVal)} {i : Nat} {k0 : String}
    {v0 : JsVal} {f : String} (hi : m.get? i = some (k0, v0)) (hne : (k0 == f) = false) :
    (redactStep m f).get? i = some (k0, v0) := by
  unfold redactStep
  by_cases ht : truthy (getField m f) = true
  · rw [if_pos ht]
    exact get?_setField_ne hi hne
  · rw [if_neg ht]
    exact hi

theorem get?_foldl_redact {fs : List String} {m : List (String × JsVal)} {i : Nat}
    {k0 : String} {v0 : JsVal} (hi : m.get? i = some (k0, v0)) (hk : k0 ∉ fs) :
    (fs.foldl redactStep m).get? i = some (k0, v0) := by
  induction fs generalizing m with
  | nil => exact hi
  | cons f fs ih =>
    have hne : (k0 == f) = false := by
      have : k0 ≠ f := fun h => hk (h ▸ List.mem_cons_self _ _)
      simpa using this
    exact ih (get?_redactStep_ne hi hne) (fun h => hk (List.mem_cons_of_mem _ h))

theorem get?_sanitizeList_arr {l : List (String × JsVal)} {i : Nat} {k : String}
    {xs : List JsVal} (hi : l.get? i = some (k, JsVal.arr xs)) :
    (sanitizeList l).get? i = some (k, JsVal.arr xs) := by
  induction l generalizing i with
  | nil => simp at hi
  | cons hd tl ih =>
    rcases hd with ⟨k1, v1⟩
    cases i with
    | zero =>
      simp at hi
      rcases hi with ⟨hk, hv⟩
      subst hv
      rw [show sanitizeList ((k1, JsVal.arr xs) :: tl) = (k1, JsVal.arr xs) :: sanitizeList tl from by
        rw [sanitizeList]; all_goals simp]
      simp [hk]
    | succ i =>
      simp only [List.get?] at hi
      cases v1 with
      | obj fields =>
        rw [show sanitizeList ((k1, JsVal.obj fields) :: tl) =
            (k1, JsVal.obj (sanitizeList (redactFields fields))) :: sanitizeList tl from by
          rw [sanitizeList]; all_goals simp]
        simpa using ih hi
      | str s =>
        rw [show sanitizeList ((k1, JsVal.str s) :: tl) = (k1, JsVal.str s) :: sanitizeList tl from by
          rw [sanitizeList]; all_goals simp]
        simpa using ih hi
      | num n =>
        rw [show sanitizeList ((k1, JsVal.num n) :: tl) = (k1, JsVal.num n) :: sanitizeList tl from by
          rw [sanitizeList]; all_goals simp]
        simpa using ih hi
      | orbool b =>
        rw [show sanitizeList ((k1, JsVal.orbool b) :: tl) = (k1, JsVal.orbool b) :: sanitizeList tl from by
          rw [sanitizeList]; all_goals simp]
        simpa using ih hi
      | null =>
        rw [show sanitizeList ((k1, JsVal.null) :: tl) = (k1, JsVal.null) :: sanitizeList tl from by
          rw [sanitizeList]; all_goals simp]
        simpa using ih hi
      | undefined =>
        rw [show sanitizeList ((k1, JsVal.undefined) :: tl) = (k1, JsVal.undefined) :: sanitizeList tl from by
          rw [sanitizeList]; all_goals simp]
        simpa using ih hi
      | arr ys =>
        rw [show sanitizeList ((k1, JsVal.arr ys) :: tl) = (k1, JsVal.arr ys) :: sanitizeList tl from by
          rw [sanitizeList]; all_goals simp]
        simpa using ih hi

theorem sanitizeList_nil : sanitizeList [] = [] := by
  rw [sanitizeList]

theorem sanitizeList_cons_str (k s : String) (rest : List (String × JsVal)) :
    sanitizeList ((k, JsVal.str s) :: rest) = (k, JsVal.str s) :: sanitizeList rest := by
  rw [sanitizeList]
  all_goals simp

/-- C3 (amended).  The full input-output contract of sanitizeBody at
every sensitive field, stated lookup-wise like the JS property access of
the source: a truthy value under a sensitive key becomes exactly the
marker string REDACTED; a falsy value (empty string, zero, false, null,
undefined) under a sensitive key is left unchanged; a non-sensitive key
holding a mapping holds its sanitized mapping in the result, which
extends the contract to every mapping depth not inside an array; and
every other non-sensitive field (scalars and arrays) passes through
unchanged. -/
theorem C3_theorem (m : List (String × JsVal)) :
    (∀ f ∈ sensitiveFields, truthy (getField m f) = true →
      getField (sanitizeBody m) f = JsVal.str ("[REDACTED]")) ∧
    (∀ f ∈ sensitiveFields, truthy (getField m f) = false →
      getField (sanitizeBody m) f = getField m f) ∧
    (∀ k : String, k ∉ sensitiveFields → ∀ fields : List (String × JsVal),
      getField m k = JsVal.obj fields →
      getField (sanitizeBody m) k = JsVal.obj (sanitizeBody fields)) ∧
    (∀ k : String, k ∉ sensitiveFields →
      (∀ fields : List (String × JsVal), getField m k ≠ JsVal.obj fields) →
      getField (sanitizeBody m) k = getField m k) := by
  refine ⟨?_, ?_, ?_, ?_⟩
  · intro f hf ht
    have hred : getField (redactFields m) f = JsVal.str ("[REDACTED]") :=
      (redactedRel_redactFields m f hf).1 ht
    show getField (sanitizeList (redactFields m)) f = _
    rw [getField_sanitizeList, hred]
  · intro f hf ht
    have hred : getField (redactFields m) f = getField m f :=
      (redactedRel_redactFields m f hf).2 ht
    show getField (sanitizeList (redactFields m)) f = _
    rw [getField_sanitizeList, hred]
    rcases hv : getField m f with s | n | b | _ | _ | xs | fields
    · rfl
    · rfl
    · rfl
    · rfl
    · rfl
    · rfl
    · rw [hv] at ht
      exact absurd ht (by simp [truthy])
  · intro k hk fields hobj
    have hred : getField (redactFields m) k = getField m k :=
      getField_foldl_ne sensitiveFields m k hk
    show getField (sanitizeList (redactFields m)) k = _
    rw [getField_sanitizeList, hred, hobj]
    rfl
  · intro k hk hnobj
    have hred : getField (redactFields m) k = getField m k :=
      getField_foldl_ne sensitiveFields m k hk
    show getField (sanitizeList (redactFields m)) k = _
    rw [getField_sanitizeList, hred]
    rcases hv : getField m k with s | n | b | _ | _ | xs | fields
    · rfl
    · rfl
    · rfl
    · rfl
    · rfl
    · rfl
    · exact absurd hv (hnobj fields)

/-- C3 (witness): the contract at a concrete body with a truthy
password, a falsy (empty-string) token, a nested mapping under a
non-sensitive key, and an array under a non-sensitive key. -/
theorem C3_witness :
    (getField (sanitizeBody [(("password"), JsVal.str ("pw")), (("token"), JsVal.str ("")),
        (("profile"), JsVal.obj [(("secret"), JsVal.str ("s"))]),
        (("tags"), JsVal.arr [JsVal.str ("a")])]) ("password") =
      JsVal.str ("[REDACTED]")) ∧
    (getField (sanitizeBody [(("password"), JsVal.str ("pw")), (("token"), JsVal.str ("")),
        (("profile"), JsVal.obj [(("secret"), JsVal.str ("s"))]),
        (("tags"), JsVal.arr [JsVal.str ("a")])]) ("token") =
      JsVal.str ("")) ∧
    (getField (sanitizeBody [(("password"), JsVal.str ("pw")), (("token"), JsVal.str ("")),
        (("profile"), JsVal.obj [(("secret"), JsVal.str ("s"))]),
        (("tags"), JsVal.arr [JsVal.str ("a")])]) ("profile") =
      JsVal.obj (sanitizeBody [(("secret"), JsVal.str ("s"))])) ∧
    (getField (sanitizeBody [(("password"), JsVal.str ("pw")), (("token"), JsVal.str ("")),
        (("profile"), JsVal.obj [(("secret"), JsVal.str ("s"))]),
        (("tags"), JsVal.arr [JsVal.str ("a")])]) ("tags") =
      JsVal.arr [JsVal.str ("a")]) := by
  refine ⟨?_, ?_, ?_, ?_⟩
  · exact (C3_theorem _).1 ("password") (by decide) (by decide)
  · exact ((C3_theorem _).2.1 ("token") (by decide) (by decide)).trans (by rfl)
  · exact (C3_theorem _).2.2.1 ("profile") (by decide) _ (by rfl)
  · exact ((C3_theorem _).2.2.2 ("tags") (by decide)
      (fun fields h => JsVal.noConfusion h)).trans (by rfl)

/-- C3 (counterexample to the claim as stated).  The claim says a
sensitive key's value is replaced regardless of its type; but the guard
of the source checks JS truthiness, so a password bound to the empty
string passes through unredacted: the original value is still present. -/
theorem C3_counterexample :
    sanitizeBody [(("password"), JsVal.str (""))] = [(("password"), JsVal.str (""))] := by
  have h1 : redactFields [(("password"), JsVal.str (""))] = [(("password"), JsVal.str (""))] := by
    rfl
  show sanitizeList (redactFields [(("password"), JsVal.str (""))]) = _
  rw [h1, sanitizeList_cons_str, sanitizeList_nil]

/-- C9 (amended).  sanitizeBody passes array-valued fields through
unchanged, at their original position and without recursing into their
elements, provided the field's key is not in the sensitive set (sensitive
keys are redacted first, and an array is truthy, so an array under a
sensitive key becomes the marker string instead). -/
theorem C9_theorem (m : List (String × JsVal)) (i : Nat) (k : String) (xs : List JsVal)
    (hk : k ∉ sensitiveFields) (hi : m.get? i = some (k, JsVal.arr xs)) :
    (sanitizeBody m).get? i = some (k, JsVal.arr xs) :=
  get?_sanitizeList_arr (get?_foldl_redact hi hk)

/-- C9 (witness): a concrete non-sensitive array-valued field survives
sanitization unchanged. -/
theorem C9_witness :
    (sanitizeBody [(("tags"), JsVal.arr [JsVal.str ("t1")]),
      (("password"), JsVal.str ("x"))]).get? 0 =
      some (("tags"), JsVal.arr [JsVal.str ("t1")]) :=
  C9_theorem _ 0 _ _ (by decide) (by rfl)

/-- C9 (counterexample to the claim as stated).  The claim says sanitize
acts as the identity on every array-valued field; but an array is truthy,
so an array bound to a sensitive key such as token is replaced by the
marker string. -/
theorem C9_counterexample :
    sanitizeBody [(("token"), JsVal.arr [])] = [(("token"), JsVal.str ("[REDACTED]"))] := by
  have h1 : redactFields [(("token"), JsVal.arr [])] =
      [(("token"), JsVal.str ("[REDACTED]"))] := by rfl
  show sanitizeList (redactFields [(("token"), JsVal.arr [])]) = _
  rw [h1, sanitizeList_cons_str, sanitizeList_nil]

/-! ## Step-indexed heap model of sanitizeBody (claim C1)

JavaScript object values are references, so a body can reach itself; a
tree-shaped value cannot express that.  Here a mapping value is a
reference (an address) into a heap, and the sanitizer is evaluated with a
step budget modelling the finite call stack: one unit is consumed per
loop step and per recursive descent, and the result is none when the
budget runs out.  The source computation terminates on an input exactly
when some finite budget suffices. -/

inductive HVal where
  | str (s : String)
  | num (n : Int)
  | orbool (b : Bool)
  | null
  | undefined
  | arr (elems : List HVal)
  | ref (a : Nat)
  | obj (fields : List (String × HVal))
deriving Repr

/-- A heap assigning mappings to addresses.  Input mappings are always
reached through HVal.ref (as in JS, where every object value is a
reference); the HVal.obj constructor represents only the fresh mappings
the sanitizer allocates for its output. -/
def Heap : Type := Nat → Option (List (String × HVal))

/-- JS truthiness over heap values; references and objects, like every
JS object, are truthy. -/
def truthyH : HVal → Bool
  | HVal.str s => s != ""
  | HVal.num n => n != 0
  | HVal.orbool b => b
  | HVal.null => false
  | HVal.undefined => false
  | HVal.arr _ => true
  | HVal.ref _ => true
  | HVal.obj _ => true

/-- JS property read over heap values. -/
def getFieldH (m : List (String × HVal)) (k : String) : HVal :=
  match m.find? (fun kv => kv.1 == k) with
  | some kv => kv.2
  | none => HVal.undefined

/-- JS property write over heap values (first binding overwritten). -/
def setFieldH : List (String × HVal) → String → HVal → List (String × HVal)
  | [], k, v => [(k, v)]
  | (k0, v0) :: rest, k, v =>
    if k0 == k then (k, v) :: rest else (k0, v0) :: setFieldH rest k v

/-- The redaction loop of sanitizeBody over heap values. -/
def redactH (m : List (String × HVal)) : List (String × HVal) :=
  sensitiveFields.foldl
    (fun acc f =>
      if truthyH (getFieldH acc f) then setFieldH acc f (HVal.str ("[REDACTED]")) else acc)
    m

/-- The nested-object loop of sanitizeBody, step-indexed.  A reference
(the only way an input mapping occurs, matching the typeof object,
non-null, non-array test of the source) is dereferenced and sanitized
recursively, which in the source is the call this.sanitizeBody(value):
redact first, then walk the fields.  Exhausting the budget models the
stack overflow of unbounded recursion and yields none. -/
def sanFieldsH (heap : Heap) : Nat → List (String × HVal) → Option (List (String × HVal))
  | 0, _ => none
  | _ + 1, [] => some []
  | fuel + 1, (k, HVal.ref a) :: rest =>
    match heap a with
    | some inner =>
      match sanFieldsH heap fuel (redactH inner) with
      | none => none
      | some s =>
        match sanFieldsH heap fuel rest with
        | none => none
        | some t => some ((k, HVal.obj s) :: t)
    | none =>
      match sanFieldsH heap fuel rest with
      | none => none
      | some t => some ((k, HVal.ref a) :: t)
  | fuel + 1, kv :: rest =>
    match sanFieldsH heap fuel rest with
    | none => none
    | some t => some (kv :: t)

/-- sanitizeBody over the heap model: redact the copied mapping, then
walk its fields, with a step budget. -/
def sanitizeBodyH (heap : Heap) (fuel : Nat) (m : List (String × HVal)) :
    Option (List (String × HVal)) :=
  sanFieldsH heap fuel (redactH m)

/-- The self-referential body of the repository test: the object
bound at address 0 holds name = test and self = a reference to itself. -/
def cycBody : List (String × HVal) :=
  [(("name"), HVal.str ("test")), (("self"), HVal.ref 0)]

/-- The one-object heap realizing cycBody.self === cycBody. -/
def cycHeap : Heap :=
  fun a => if a = 0 then some cycBody else none

theorem redactH_cycBody : redactH cycBody = cycBody := by rfl

theorem sanFieldsH_cyc (fuel : Nat) :
    sanFieldsH cycHeap fuel cycBody = none ∧
      sanFieldsH cycHeap fuel [(("self"), HVal.ref 0)] = none := by
  induction fuel with
  | zero => exact ⟨rfl, rfl⟩
  | succ fuel ih =>
    constructor
    · have hstep : sanFieldsH cycHeap (fuel + 1) cycBody =
          (match sanFieldsH cycHeap fuel [(("self"), HVal.ref 0)] with
            | none => none
            | some t => some ((("name"), HVal.str ("test")) :: t)) := rfl
      rw [hstep, ih.2]
    · have hstep : sanFieldsH cycHeap (fuel + 1) [(("self"), HVal.ref 0)] =
          (match sanFieldsH cycHeap fuel (redactH cycBody) with
            | none => none
            | some s =>
              match sanFieldsH cycHeap fuel ([] : List (String × HVal)) with
              | none => none
              | some t => some ((("self"), HVal.obj s) :: t)) := rfl
      rw [hstep, redactH_cycBody, ih.1]

/-- C1 (the code at the failing input).  On the self-referential body of
the repository's own test (body.self = body), sanitizeBody never
terminates: no finite step budget produces a result, because sanitizeBody
has no visited-set and recurses into the self reference forever.  In the
real runtime this is a stack-overflow exception, not the claimed
substitution of the circular marker. -/
theorem C1_theorem (fuel : Nat) : sanitizeBodyH cycHeap fuel cycBody = none := by
  show sanFieldsH cycHeap fuel (redactH cycBody) = none
  rw [redactH_cycBody]
  exact (sanFieldsH_cyc fuel).1

/-! ## The body-logging step of LoggerMiddleware.use (claim C2)

The source line is
logger.debug(brk requestId brk Body: JSON.stringify(sanitizedBody)),
with no try/catch anywhere in use.  JSON.stringify is host behaviour
(it can throw on toJSON hooks, BigInt values, etc.), so its outcome is a
parameter: ok s when it returns the text s, error e when it throws e. -/

/-- The debug line the middleware builds for a non-empty body: the
template literal evaluates JSON.stringify before logger.debug is called,
so a serialization failure propagates out of use unchanged. -/
def bodyLogLine (requestId : String) (ser : Except String String) : Except String String :=
  match ser with
  | Except.ok s => Except.ok ("[" ++ requestId ++ "] Body: " ++ s)
  | Except.error e => Except.error e

/-- C2 (the code at the failing input).  When serialization of the
sanitized body fails (here with the message thrown by the repository's
own test), the body-logging step of use propagates the failure instead
of emitting the fallback line
Body: [Unable to serialize - circular reference detected]:
there is no catch in the source.  The second conjunct records that no
serialization error ever yields a successful log line. -/
theorem C2_theorem :
    bodyLogLine ("test-request-id") (Except.error ("JSON serialization error")) =
      Except.error ("JSON serialization error") ∧
    ∀ e : String, (bodyLogLine ("test-request-id") (Except.error e)).isOk = false := by
  exact ⟨rfl, fun e => rfl⟩

/-! ## TenantContextMiddleware (tenant-context.middleware.ts) -/

namespace TenantContextMiddleware

/-- Which branch of extractTenantContext produced the tenant. -/
inductive TenantSource where
  | fromHeader
  | fromSubdomain
  | fromDefault
deriving Repr, DecidableEq

/-- The TenantContext interface.  tenantId is an Option because the JS
value can be undefined when an empty-array header value is indexed; the
subdomain property is set only by the subdomain branch. -/
structure TenantContext where
  tenantId : Option String
  subdomain : Option String
  source : TenantSource
deriving Repr, DecidableEq

/-- An inbound x-tenant-id header value: absent, a single string, or an
array of strings (Node models repeated headers as arrays). -/
inductive HeaderVal where
  | absent
  | single (s : String)
  | multi (l : List String)
deriving Repr, DecidableEq

/-- JS truthiness of req.headers[x-tenant-id]: absent and the empty
string are falsy; every array, even an empty one, is truthy. -/
def headerTruthy : HeaderVal → Bool
  | HeaderVal.absent => false
  | HeaderVal.single s => s != ""
  | HeaderVal.multi _ => true

/-- Array.isArray(h) ? h[0] : h, where indexing an empty array gives
undefined (none). -/
def headerFirst : HeaderVal → Option String
  | HeaderVal.absent => none
  | HeaderVal.single s => some s
  | HeaderVal.multi l => l.head?

/-- The defaultTenant field: process.env.DEFAULT_TENANT_ID or null, where
the or-expression turns an unset or empty env value into null. -/
def defaultTenant (envDefault : Option String) : Option String :=
  match envDefault with
  | some s => if s != "" then some s else none
  | none => none

/-- The reserved subdomains of extractSubdomain:
const ignoredSubdomains = [www, api, admin, app]. -/
def ignoredSubdomains : List String :=
  [("www"), ("api"), ("admin"), ("app")]

/-- JS String.prototype.startsWith, spelled out over character lists so
that concrete instances evaluate: s starts with p. -/
def strStartsWith (s p : String) : Bool :=
  p.data.isPrefixOf s.data

/-- JS String.prototype.split('.') over character lists: cut at every
dot, keeping empty pieces (split never returns an empty list). -/
def splitOnDotAux : List Char → List Char → List String
  | [], acc => [String.mk acc.reverse]
  | c :: cs, acc =>
    if c = ('.' : Char) then String.mk acc.reverse :: splitOnDotAux cs []
    else splitOnDotAux cs (c :: acc)

/-- hostname.split('.') of the source. -/
def splitOnDot (s : String) : List String :=
  splitOnDotAux s.data []

/-- The dotted-quad test of extractSubdomain.  The source regex matches
one-or-more digits, four groups separated by dots, anchored at both ends;
equivalently the hostname splits on dots into exactly four nonempty
all-digit parts. -/
def isIPv4 (hostname : String) : Bool :=
  let ps := splitOnDot hostname
  ps.length == 4 && ps.all (fun p => p != "" && p.data.all Char.isDigit)

/-- TenantContextMiddleware.extractSubdomain: no subdomain for localhost
or an IPv4 address; otherwise the first label of a 3+-label hostname,
unless it is a reserved name. -/
def extractSubdomain (hostname : String) : Option String :=
  if hostname == "localhost" || isIPv4 hostname then none
  else
    let parts := splitOnDot hostname
    if parts.length ≥ 3 then
      let subdomain := parts.headD ("")
      if ignoredSubdomains.contains subdomain then none else some subdomain
    else none

/-- TenantContextMiddleware.extractTenantContext: header (first element
when array-valued) wins, then subdomain, then configured default,
else null. -/
def extractTenantContext (hdr : HeaderVal) (hostname : String)
    (envDefault : Option String) : Option TenantContext :=
  if headerTruthy hdr then
    some { tenantId := headerFirst hdr, subdomain := none,
           source := TenantSource.fromHeader }
  else
    match extractSubdomain hostname with
    | some sd =>
      some { tenantId := some sd, subdomain := some sd,
             source := TenantSource.fromSubdomain }
    | none =>
      match defaultTenant envDefault with
      | some d =>
        if d != "" then
          some { tenantId := some d, subdomain := none,
                 source := TenantSource.fromDefault }
        else none
      | none => none

/-- The excluded path prefixes of the middleware. -/
def excludedPaths : List String :=
  [("/health"), ("/api/public"), ("/api/auth/register")]

/-- TenantContextMiddleware.isExcludedPath: exact match or the prefix
followed by a slash. -/
def isExcludedPath (path : String) : Bool :=
  excludedPaths.any (fun excluded => path == excluded || strStartsWith path (excluded ++ "/"))

/-- The observable outcome of TenantContextMiddleware.use: the tenant
context stored on the request (none both for excluded paths and for an
unresolved tenant), and the x-tenant-id response header write
(none when setHeader was not called; some v when it was called with v).
The embedded extractTenantContext is a total function, so the catch
branch of use (which wraps an exception in a BadRequestException) is
unreachable in the model and use never errors. -/
structure UseResult where
  tenantContext : Option TenantContext
  responseHeader : Option (Option String)
deriving Repr, DecidableEq

/-- TenantContextMiddleware.use on a request with the given originalUrl,
header, hostname and configured default. -/
def use (path : String) (hdr : HeaderVal) (hostname : String)
    (envDefault : Option String) : UseResult :=
  if isExcludedPath path then
    { tenantContext := none, responseHeader := none }
  else
    let tc := extractTenantContext hdr hostname envDefault
    { tenantContext := tc,
      responseHeader := tc.map (fun c => c.tenantId) }

end TenantContextMiddleware

open TenantContextMiddleware

/-- C5.  Tenant resolution follows the precedence header, then subdomain,
then default: a truthy x-tenant-id header (a nonempty string, or the
first element of an array value) yields a header-sourced context whatever
the hostname and default; with no header, a 3+-label non-localhost
non-IPv4 hostname whose first label is not reserved yields that label as
a subdomain-sourced tenant; and with no header, a reserved first label
and a configured nonempty default, the result is default-sourced. -/
theorem C5_theorem :
    (∀ (s hostname : String) (envDefault : Option String), s ≠ "" →
      extractTenantContext (HeaderVal.single s) hostname envDefault =
        some { tenantId := some s, subdomain := none,
               source := TenantSource.fromHeader }) ∧
    (∀ (x : String) (l : List String) (hostname : String) (envDefault : Option String),
      extractTenantContext (HeaderVal.multi (x :: l)) hostname envDefault =
        some { tenantId := some x, subdomain := none,
               source := TenantSource.fromHeader }) ∧
    (∀ (hostname : String) (envDefault : Option String),
      hostname ≠ ("localhost") → isIPv4 hostname = false →
      3 ≤ (splitOnDot hostname).length →
      (splitOnDot hostname).headD ("") ∉ ignoredSubdomains →
      extractTenantContext HeaderVal.absent hostname envDefault =
        some { tenantId := some ((splitOnDot hostname).headD ("")),
               subdomain := some ((splitOnDot hostname).headD ("")),
               source := TenantSource.fromSubdomain }) ∧
    (∀ (hostname d : String),
      (splitOnDot hostname).headD ("") ∈ ignoredSubdomains → d ≠ "" →
      (extractTenantContext HeaderVal.absent hostname (some d)).map
          (fun c => c.source) = some TenantSource.fromDefault) := by
  refine ⟨?_, ?_, ?_, ?_⟩
  · intro s hostname envDefault hs
    simp [extractTenantContext, headerTruthy, headerFirst, hs]
  · intro x l hostname envDefault
    simp [extractTenantContext, headerTruthy, headerFirst]
  · intro hostname envDefault hlh hip hlen hres
    have hsub : extractSubdomain hostname = some ((splitOnDot hostname).headD ("")) := by
      unfold extractSubdomain
      have h1 : (hostname == ("localhost")) = false := by simpa using hlh
      rw [h1, hip]
      simp only [Bool.or_self, Bool.false_eq_true, if_false]
      rw [if_pos hlen]
      have h2 : ignoredSubdomains.contains ((splitOnDot hostname).headD ("")) = false := by
        simpa using hres
      rw [h2]
      simp
    simp [extractTenantContext, headerTruthy, hsub]
  · intro hostname d hres hd
    have hsub : extractSubdomain hostname = none := by
      unfold extractSubdomain
      by_cases h1 : (hostname == ("localhost")) || isIPv4 hostname
      · rw [if_pos h1]
      · rw [if_neg h1]
        by_cases hlen : 3 ≤ (splitOnDot hostname).length
        · rw [if_pos hlen]
          have h2 : ignoredSubdomains.contains ((splitOnDot hostname).headD ("")) = true := by
            simpa using hres
          show (if ignoredSubdomains.contains ((splitOnDot hostname).headD ("")) = true
              then (none : Option String)
              else some ((splitOnDot hostname).headD (""))) = none
          rw [if_pos h2]
        · rw [if_neg hlen]
    simp [extractTenantContext, headerTruthy, hsub, defaultTenant, hd]

/-- C5 (witness): the three branches at concrete requests, matching the
examples of the spec. -/
theorem C5_witness :
    (extractTenantContext (HeaderVal.single ("t0")) ("acme.example.com") (some ("d")) =
      some { tenantId := some ("t0"), subdomain := none,
             source := TenantSource.fromHeader }) ∧
    (extractTenantContext (HeaderVal.multi [("t1"), ("t2")]) ("tenant.example.com") none =
      some { tenantId := some ("t1"), subdomain := none,
             source := TenantSource.fromHeader }) ∧
    (extractTenantContext HeaderVal.absent ("acme.example.com") (some ("d")) =
      some { tenantId := some ("acme"), subdomain := some ("acme"),
             source := TenantSource.fromSubdomain }) ∧
    ((extractTenantContext HeaderVal.absent ("www.example.com") (some ("d"))).map
        (fun c => c.source) = some TenantSource.fromDefault) := by
  refine ⟨C5_theorem.1 ("t0") _ _ (by decide), C5_theorem.2.1 ("t1") [("t2")] _ _, ?_, ?_⟩
  · exact C5_theorem.2.2.1 ("acme.example.com") (some ("d"))
      (by decide) (by decide) (by decide) (by decide)
  · exact C5_theorem.2.2.2 ("www.example.com") ("d") (by decide) (by decide)

/-- C6.  Every path equal to an excluded prefix, or extending it past a
slash, skips tenant resolution: the stored context is absent and the
x-tenant-id response header is never written (the embedded use is total,
so no error arises); /healthcheck and /api/auth/login are not excluded
and go through resolution. -/
theorem C6_theorem :
    (∀ (path : String) (hdr : HeaderVal) (hostname : String) (envDefault : Option String),
      (∃ excluded ∈ excludedPaths,
        path = excluded ∨ strStartsWith path (excluded ++ ("/")) = true) →
      use path hdr hostname envDefault =
        { tenantContext := none, responseHeader := none }) ∧
    isExcludedPath ("/healthcheck") = false ∧
    isExcludedPath ("/api/auth/login") = false ∧
    (∀ (hdr : HeaderVal) (hostname : String) (envDefault : Option String),
      use ("/healthcheck") hdr hostname envDefault =
        { tenantContext := extractTenantContext hdr hostname envDefault,
          responseHeader := (extractTenantContext hdr hostname envDefault).map
            (fun c => c.tenantId) } ∧
      use ("/api/auth/login") hdr hostname envDefault =
        { tenantContext := extractTenantContext hdr hostname envDefault,
          responseHeader := (extractTenantContext hdr hostname envDefault).map
            (fun c => c.tenantId) }) := by
  refine ⟨?_, by decide, by decide, ?_⟩
  · intro path hdr hostname envDefault hex
    rcases hex with ⟨excluded, hmem, hcase⟩
    have hpath : isExcludedPath path = true := by
      unfold isExcludedPath
      rw [List.any_eq_true]
      refine ⟨excluded, hmem, ?_⟩
      rcases hcase with h | h
      · subst h
        simp
      · rw [h]
        simp
    simp [use, hpath]
  · intro hdr hostname envDefault
    constructor
    · have h : isExcludedPath ("/healthcheck") = false := by decide
      simp [use, h]
    · have h : isExcludedPath ("/api/auth/login") = false := by decide
      simp [use, h]

/-- C6 (witness): the excluded path /health/x at a concrete request. -/
theorem C6_witness :
    use ("/health/x") HeaderVal.absent ("localhost") none =
      { tenantContext := none, responseHeader := none } :=
  C6_theorem.1 ("/health/x") HeaderVal.absent ("localhost") none
    ⟨("/health"), by decide, Or.inr (by decide)⟩

/-- C10.  A present but empty-string x-tenant-id header is falsy, so
extractTenantContext behaves exactly as if the header were absent,
falling through to subdomain extraction and the configured default. -/
theorem C10_theorem (hostname : String) (envDefault : Option String) :
    extractTenantContext (HeaderVal.single ("")) hostname envDefault =
      extractTenantContext HeaderVal.absent hostname envDefault := by
  simp [extractTenantContext, headerTruthy]

/-- The request-id defaulting used by every guard:
request.requestId or the literal no-request-id (the or-expression also
replaces an empty string, which is falsy). -/
def requestIdOr : Option String → String
  | some s => if s != "" then s else ("no-request-id")
  | none => ("no-request-id")

/-! ## JwtAuthGuard.handleRequest (jwt-auth.guard.ts) -/

namespace JwtAuthGuard

/-- The info argument passed by the credential validator: no info, a
TokenExpiredError (a subclass of JsonWebTokenError), another
JsonWebTokenError, or some other error-like value carrying an optional
message. -/
inductive InfoVal where
  | noInfo
  | tokenExpiredError (message : String)
  | jsonWebTokenError (message : String)
  | otherError (message : Option String)
deriving Repr, DecidableEq

/-- info instanceof TokenExpiredError. -/
def isTokenExpired : InfoVal → Bool
  | InfoVal.tokenExpiredError _ => true
  | _ => false

/-- info instanceof JsonWebTokenError: TokenExpiredError extends
JsonWebTokenError, so both constructors satisfy it. -/
def isJwtError : InfoVal → Bool
  | InfoVal.tokenExpiredError _ => true
  | InfoVal.jsonWebTokenError _ => true
  | _ => false

/-- The optional chain info?.message. -/
def infoMessage : InfoVal → Option String
  | InfoVal.noInfo => none
  | InfoVal.tokenExpiredError m => some m
  | InfoVal.jsonWebTokenError m => some m
  | InfoVal.otherError m => m

/-- The payload of the UnauthorizedException thrown by handleRequest. -/
structure AuthRejection where
  message : String
  code : String
  requestId : String
deriving Repr, DecidableEq

/-- JwtAuthGuard.handleRequest: translate the validator outcome
(err, user, info) into a typed rejection or the authenticated user,
checking expiry first, then malformed tokens, then the literal
No auth token info message, then the err-or-falsy-user catch-all. -/
def handleRequest {α : Type} (err : Option String) (user : Option α) (info : InfoVal)
    (rawRequestId : Option String) : Except AuthRejection α :=
  let requestId := requestIdOr rawRequestId
  if isTokenExpired info then
    Except.error { message := ("Token has expired"), code := ("TOKEN_EXPIRED"),
                   requestId := requestId }
  else if isJwtError info then
    Except.error { message := ("Invalid token"), code := ("INVALID_TOKEN"),
                   requestId := requestId }
  else if infoMessage info == some ("No auth token") then
    Except.error { message := ("Authentication token is required"), code := ("TOKEN_MISSING"),
                   requestId := requestId }
  else
    match user with
    | none =>
      Except.error { message := ("Unauthorized access"), code := ("UNAUTHORIZED"),
                     requestId := requestId }
    | some u =>
      if err.isSome then
        Except.error { message := ("Unauthorized access"), code := ("UNAUTHORIZED"),
                       requestId := requestId }
      else Except.ok u

end JwtAuthGuard

open JwtAuthGuard

/-- C4.  The rejection kind of handleRequest follows the precedence
TOKEN_EXPIRED, then INVALID_TOKEN, then TOKEN_MISSING, then UNAUTHORIZED,
with the four fixed messages; an expired-token signal wins even when a
user identity is present, and absence of an error, a user, and any
specific info signal yields UNAUTHORIZED. -/
theorem C4_theorem {α : Type} (err : Option String) (user : Option α) (info : InfoVal)
    (rid : Option String) :
    (isTokenExpired info = true →
      handleRequest err user info rid =
        Except.error { message := ("Token has expired"), code := ("TOKEN_EXPIRED"),
                       requestId := requestIdOr rid }) ∧
    (isTokenExpired info = false → isJwtError info = true →
      handleRequest err user info rid =
        Except.error { message := ("Invalid token"), code := ("INVALID_TOKEN"),
                       requestId := requestIdOr rid }) ∧
    (isJwtError info = false → infoMessage info = some ("No auth token") →
      handleRequest err user info rid =
        Except.error { message := ("Authentication token is required"),
                       code := ("TOKEN_MISSING"), requestId := requestIdOr rid }) ∧
    (isJwtError info = false → infoMessage info ≠ some ("No auth token") →
      err = none → user = none →
      handleRequest err user info rid =
        Except.error { message := ("Unauthorized access"), code := ("UNAUTHORIZED"),
                       requestId := requestIdOr rid }) := by
  refine ⟨?_, ?_, ?_, ?_⟩
  · intro h
    simp [handleRequest, h]
  · intro h1 h2
    simp [handleRequest, h1, h2]
  · intro h1 h2
    have h0 : isTokenExpired info = false := by
      cases info <;> simp_all [isTokenExpired, isJwtError]
    simp [handleRequest, h0, h1, h2]
  · intro h1 h2 herr huser
    have h0 : isTokenExpired info = false := by
      cases info <;> simp_all [isTokenExpired, isJwtError]
    subst herr huser
    simp [handleRequest, h0, h1, h2]

/-- C4 (witness): the precedence at concrete outcomes, an expired token
with a user attached included. -/
theorem C4_witness :
    (handleRequest (α := Unit) none (some ()) (InfoVal.tokenExpiredError ("jwt expired"))
        (some ("req-1")) =
      Except.error { message := ("Token has expired"), code := ("TOKEN_EXPIRED"),
                     requestId := ("req-1") }) ∧
    (handleRequest (α := Unit) none none (InfoVal.jsonWebTokenError ("jwt malformed")) none =
      Except.error { message := ("Invalid token"), code := ("INVALID_TOKEN"),
                     requestId := ("no-request-id") }) ∧
    (handleRequest (α := Unit) none none (InfoVal.otherError (some ("No auth token"))) none =
      Except.error { message := ("Authentication token is required"), code := ("TOKEN_MISSING"),
                     requestId := ("no-request-id") }) ∧
    (handleRequest (α := Unit) none none InfoVal.noInfo none =
      Except.error { message := ("Unauthorized access"), code := ("UNAUTHORIZED"),
                     requestId := ("no-request-id") }) := by
  refine ⟨?_, ?_, ?_, ?_⟩
  · exact (C4_theorem none (some ()) (InfoVal.tokenExpiredError ("jwt expired"))
      (some ("req-1"))).1 (by decide)
  · exact (C4_theorem none none (InfoVal.jsonWebTokenError ("jwt malformed")) none).2.1
      (by decide) (by decide)
  · exact (C4_theorem none none (InfoVal.otherError (some ("No auth token"))) none).2.2.1
      (by decide) (by decide)
  · exact (C4_theorem none none InfoVal.noInfo none).2.2.2
      (by decide) (by decide) rfl rfl

/-! ## FeatureFlagGuard (feature-flag.guard.ts) -/

namespace FeatureFlagGuard

/-- The static global enabled-set of the guard:
new Set([new-dashboard, beta-reports]). -/
def enabledFeatures : List String :=
  [("new-dashboard"), ("beta-reports")]

/-- The static per-flag tenant-exclusion table of isFeatureEnabled:
beta-reports is disabled for tenant-123; other flags have no entry. -/
def disabledForTenants (flag : String) : Option (List String) :=
  if flag == ("beta-reports") then some [("tenant-123")] else none

/-- FeatureFlagGuard.isFeatureEnabled: false when the flag is not in the
global enabled-set; else, for a truthy tenant id, false when the flag's
exclusion list contains it (the optional chain makes a missing entry
falsy); else true. -/
def isFeatureEnabled (flag : String) (tenantId : Option String) : Bool :=
  if !(enabledFeatures.contains flag) then false
  else
    match tenantId with
    | some t =>
      if t != "" then
        match disabledForTenants flag with
        | some l => if l.contains t then false else true
        | none => true
      else true
    | none => true

/-- The payload of the ForbiddenException thrown by canActivate. -/
structure FeatureRejection where
  message : String
  code : String
  feature : String
  requestId : String
deriving Repr, DecidableEq

/-- FeatureFlagGuard.canActivate: a falsy required flag (no metadata, or
the empty string) allows the request; otherwise the request passes iff
isFeatureEnabled holds for the flag and the resolved tenant id
(request.tenantContext?.tenantId, none when absent). -/
def canActivate (requiredFlag : Option String) (tenantId : Option String)
    (rawRequestId : Option String) : Except FeatureRejection Bool :=
  match requiredFlag with
  | none => Except.ok true
  | some flag =>
    if flag == "" then Except.ok true
    else
      let requestId := requestIdOr rawRequestId
      if isFeatureEnabled flag tenantId then Except.ok true
      else
        Except.error { message := ("Feature not available"), code := ("FEATURE_DISABLED"),
                       feature := flag, requestId := requestId }

end FeatureFlagGuard

open FeatureFlagGuard

/-- C7.  The feature gate allows requests with no feature requirement;
rejects a flag outside the global enabled-set with kind FEATURE_DISABLED
whatever the tenant; rejects an enabled flag whose exclusion list
contains the resolved tenant; and allows an enabled flag for every other
tenant and for an absent tenant (an absent tenant is never excluded).
A nonempty flag name is assumed where the source treats the empty string
as no requirement. -/
theorem C7_theorem (tenantId : Option String) (rid : Option String) :
    (FeatureFlagGuard.canActivate none tenantId rid = Except.ok true) ∧
    (∀ flag : String, flag ≠ "" → flag ∉ enabledFeatures →
      FeatureFlagGuard.canActivate (some flag) tenantId rid =
        Except.error { message := ("Feature not available"), code := ("FEATURE_DISABLED"),
                       feature := flag, requestId := requestIdOr rid }) ∧
    (∀ (flag t : String), flag ∈ enabledFeatures →
      t ∈ (disabledForTenants flag).getD [] →
      FeatureFlagGuard.canActivate (some flag) (some t) rid =
        Except.error { message := ("Feature not available"), code := ("FEATURE_DISABLED"),
                       feature := flag, requestId := requestIdOr rid }) ∧
    (∀ flag : String, flag ≠ "" → flag ∈ enabledFeatures →
      (∀ t : String, tenantId = some t → t ∉ (disabledForTenants flag).getD []) →
      FeatureFlagGuard.canActivate (some flag) tenantId rid = Except.ok true) := by
  refine ⟨rfl, ?_, ?_, ?_⟩
  · intro flag hne hmem
    have h1 : (flag == "") = false := by simpa using hne
    have h2 : isFeatureEnabled flag tenantId = false := by
      have hcont : enabledFeatures.contains flag = false := by simpa using hmem
      unfold isFeatureEnabled
      rw [hcont]
      simp
    simp [FeatureFlagGuard.canActivate, h1, h2]
  · intro flag t hflag ht
    have hbeta : flag = ("beta-reports") ∧ t = ("tenant-123") := by
      by_cases hf : flag == ("beta-reports")
      · have : flag = ("beta-reports") := by simpa using hf
        subst this
        simp [disabledForTenants] at ht
        exact ⟨rfl, ht⟩
      · simp only [Bool.not_eq_true] at hf
        simp [disabledForTenants, hf] at ht
    rcases hbeta with ⟨rfl, rfl⟩
    rfl
  · intro flag hne hmem hnot
    have h1 : (flag == "") = false := by simpa using hne
    have h2 : isFeatureEnabled flag tenantId = true := by
      have hc : enabledFeatures.contains flag = true := by simpa using hmem
      unfold isFeatureEnabled
      rw [hc]
      cases tenantId with
      | none => simp
      | some t =>
        by_cases ht : (t != "") = true
        · cases hd : disabledForTenants flag with
          | none => simp [ht, hd]
          | some l =>
            have hnotin : t ∉ l := by
              have := hnot t rfl
              rw [hd] at this
              simpa using this
            simp [ht, hd, hnotin]
        · simp only [Bool.not_eq_true] at ht
          simp [ht]
    simp [FeatureFlagGuard.canActivate, h1, h2]

/-- C7 (witness): the four outcomes at concrete flags and tenants,
matching the spec examples for beta-reports. -/
theorem C7_witness :
    (FeatureFlagGuard.canActivate none (some ("tenant-123")) (some ("r")) =
      Except.ok true) ∧
    (FeatureFlagGuard.canActivate (some ("unknown-flag")) (some ("tenant-123")) (some ("r")) =
      Except.error { message := ("Feature not available"), code := ("FEATURE_DISABLED"),
                     feature := ("unknown-flag"), requestId := ("r") }) ∧
    (FeatureFlagGuard.canActivate (some ("beta-reports")) (some ("tenant-123")) (some ("r")) =
      Except.error { message := ("Feature not available"), code := ("FEATURE_DISABLED"),
                     feature := ("beta-reports"), requestId := ("r") }) ∧
    (FeatureFlagGuard.canActivate (some ("beta-reports")) (some ("tenant-456")) (some ("r")) =
      Except.ok true) ∧
    (FeatureFlagGuard.canActivate (some ("beta-reports")) none (some ("r")) =
      Except.ok true) := by
  refine ⟨(C7_theorem (some ("tenant-123")) (some ("r"))).1, ?_, ?_, ?_, ?_⟩
  · exact (C7_theorem (some ("tenant-123")) (some ("r"))).2.1 ("unknown-flag")
      (by decide) (by decide)
  · exact (C7_theorem (some ("tenant-123")) (some ("r"))).2.2.1 ("beta-reports")
      ("tenant-123") (by decide) (by decide)
  · exact (C7_theorem (some ("tenant-456")) (some ("r"))).2.2.2 ("beta-reports")
      (by decide) (by decide) (fun t ht => by
        cases ht
        decide)
  · exact (C7_theorem none (some ("r"))).2.2.2 ("beta-reports")
      (by decide) (by decide) (fun t ht => by cases ht)

/-! ## RolesGuard (role.guard.ts) -/

namespace RolesGuard

/-- The authenticated user attached to the request, as produced by the
JWT strategy (interfaces/authenticated-user): the roles property can be
absent at runtime, which canActivate defends against with or-empty. -/
structure AuthUser where
  userId : String
  email : String
  tenantId : Option String
  roles : Option (List String)
deriving Repr, DecidableEq

/-- The payload of the ForbiddenException thrown by RolesGuard. -/
inductive RoleRejection where
  | userNotFound (message code requestId : String)
  | insufficientRoles (message code : String)
      (requiredRoles userRoles : List String) (requestId : String)
deriving Repr, DecidableEq

/-- RolesGuard.canActivate: no required roles, or an empty list, allows;
a missing user is rejected with USER_NOT_FOUND; otherwise the request is
allowed when some required role occurs in the user's roles
(requiredRoles.some of userRoles.includes), else rejected with
INSUFFICIENT_ROLES carrying both lists verbatim. -/
def canActivate (requiredRoles : Option (List String)) (user : Option AuthUser)
    (rawRequestId : Option String) : Except RoleRejection Bool :=
  match requiredRoles with
  | none => Except.ok true
  | some rs =>
    if rs.length == 0 then Except.ok true
    else
      let requestId := requestIdOr rawRequestId
      match user with
      | none =>
        Except.error (RoleRejection.userNotFound ("User not Authenticated")
          ("USER_NOT_FOUND") requestId)
      | some u =>
        let userRoles := u.roles.getD []
        if rs.any (fun r => userRoles.contains r) then Except.ok true
        else
          Except.error (RoleRejection.insufficientRoles ("Insufficient permissions")
            ("INSUFFICIENT_ROLES") rs userRoles requestId)

end RolesGuard

theorem canActivate_cons_user (a : String) (l : List String) (u : RolesGuard.AuthUser)
    (rid : Option String) :
    RolesGuard.canActivate (some (a :: l)) (some u) rid =
      (if (a :: l).any (fun r => (u.roles.getD []).contains r) then Except.ok true
       else Except.error (RolesGuard.RoleRejection.insufficientRoles
         ("Insufficient permissions") ("INSUFFICIENT_ROLES") (a :: l) (u.roles.getD [])
         (requestIdOr rid))) := rfl

theorem canActivate_cons_noUser (a : String) (l : List String) (rid : Option String) :
    RolesGuard.canActivate (some (a :: l)) none rid =
      Except.error (RolesGuard.RoleRejection.userNotFound ("User not Authenticated")
        ("USER_NOT_FOUND") (requestIdOr rid)) := rfl

/-- C8.  The role gate allows an absent or empty requirement; rejects a
nonempty requirement with no attached user with kind USER_NOT_FOUND and
message User not Authenticated; otherwise it allows exactly when some
required role occurs in the user's role list (empty when the property is
absent), and rejects with kind INSUFFICIENT_ROLES, message Insufficient
permissions, and both lists echoed in their original order. -/
theorem C8_theorem (user : Option RolesGuard.AuthUser) (rid : Option String) :
    (RolesGuard.canActivate none user rid = Except.ok true) ∧
    (RolesGuard.canActivate (some []) user rid = Except.ok true) ∧
    (∀ rs : List String, rs ≠ [] →
      RolesGuard.canActivate (some rs) none rid =
        Except.error (RolesGuard.RoleRejection.userNotFound ("User not Authenticated")
          ("USER_NOT_FOUND") (requestIdOr rid))) ∧
    (∀ (rs : List String) (u : RolesGuard.AuthUser), rs ≠ [] →
      (RolesGuard.canActivate (some rs) (some u) rid = Except.ok true ↔
        ∃ r ∈ rs, r ∈ u.roles.getD [])) ∧
    (∀ (rs : List String) (u : RolesGuard.AuthUser), rs ≠ [] →
      (∀ r ∈ rs, r ∉ u.roles.getD []) →
      RolesGuard.canActivate (some rs) (some u) rid =
        Except.error (RolesGuard.RoleRejection.insufficientRoles ("Insufficient permissions")
          ("INSUFFICIENT_ROLES") rs (u.roles.getD []) (requestIdOr rid))) := by
  refine ⟨rfl, rfl, ?_, ?_, ?_⟩
  · intro rs hrs
    obtain ⟨a, l, rfl⟩ : ∃ a l, rs = a :: l := by
      cases rs with
      | nil => cases hrs rfl
      | cons a l => exact ⟨a, l, rfl⟩
    exact canActivate_cons_noUser a l rid
  · intro rs u hrs
    obtain ⟨a, l, rfl⟩ : ∃ a l, rs = a :: l := by
      cases rs with
      | nil => cases hrs rfl
      | cons a l => exact ⟨a, l, rfl⟩
    rw [canActivate_cons_user]
    by_cases hany : (a :: l).any (fun r => (u.roles.getD []).contains r) = true
    · rw [if_pos hany]
      constructor
      · intro _
        rw [List.any_eq_true] at hany
        rcases hany with ⟨r, hr, hc⟩
        exact ⟨r, hr, by simpa using hc⟩
      · intro _
        rfl
    · rw [if_neg hany]
      constructor
      · intro h
        cases h
      · intro hex
        exfalso
        apply hany
        rw [List.any_eq_true]
        rcases hex with ⟨r, hr, hmem⟩
        exact ⟨r, hr, by simpa using hmem⟩
  · intro rs u hrs hnone
    obtain ⟨a, l, rfl⟩ : ∃ a l, rs = a :: l := by
      cases rs with
      | nil => cases hrs rfl
      | cons a l => exact ⟨a, l, rfl⟩
    rw [canActivate_cons_user]
    have hany : ((a :: l).any (fun r => (u.roles.getD []).contains r)) = false := by
      rw [Bool.eq_false_iff]
      intro h
      rw [List.any_eq_true] at h
      rcases h with ⟨r, hr, hc⟩
      exact hnone r hr (by simpa using hc)
    rw [hany]
    simp

/-- C8 (witness): the spec's two examples, plus the absent-user and
no-requirement outcomes, at concrete users. -/
theorem C8_witness :
    (RolesGuard.canActivate (some [("admin")]) (some { userId := ("u1"), email := ("e"), tenantId := none, roles := some [("user"), ("admin")] }) (some ("r")) = Except.ok true) ∧
    (RolesGuard.canActivate (some [("admin"), ("superadmin")]) (some { userId := ("u1"), email := ("e"), tenantId := none, roles := some [("user"), ("editor")] }) (some ("r")) =
      Except.error (RolesGuard.RoleRejection.insufficientRoles ("Insufficient permissions")
        ("INSUFFICIENT_ROLES") [("admin"), ("superadmin")] [("user"), ("editor")] ("r"))) ∧
    (RolesGuard.canActivate (some [("editor")]) none (some ("r")) =
      Except.error (RolesGuard.RoleRejection.userNotFound ("User not Authenticated")
        ("USER_NOT_FOUND") ("r"))) ∧
    (RolesGuard.canActivate none (some { userId := ("u1"), email := ("e"), tenantId := none, roles := none }) (some ("r")) = Except.ok true) := by
  refine ⟨?_, ?_, ?_, ?_⟩
  · exact ((C8_theorem (some { userId := ("u1"), email := ("e"), tenantId := none, roles := some [("user"), ("admin")] }) (some ("r"))).2.2.2.1 [("admin")] { userId := ("u1"), email := ("e"), tenantId := none, roles := some [("user"), ("admin")] } (by decide)).mpr ⟨("admin"), by decide, by decide⟩
  · exact (C8_theorem (some { userId := ("u1"), email := ("e"), tenantId := none, roles := some [("user"), ("editor")] }) (some ("r"))).2.2.2.2 [("admin"), ("superadmin")] { userId := ("u1"), email := ("e"), tenantId := none, roles := some [("user"), ("editor")] } (by decide) (by decide)
  · exact (C8_theorem none (some ("r"))).2.2.1 [("editor")] (by decide)
  · exact (C8_theorem (some { userId := ("u1"), email := ("e"), tenantId := none, roles := none }) (some ("r"))).1

end ContentHub
